import Mathlib

/-!
Shallow embedding of the Soroban payment-gateway contract
(src/contracts/payment_gateway/src/lib.rs) and verification of its
natural-language specification.

Modelling conventions:
* Address and Symbol are opaque in the contract; we model Address as Nat
  and Symbol as String.
* I256 amounts are modelled as Int (the contract only compares amounts
  to zero and passes them through; no I256 arithmetic occurs).
* Timepoint values are unix seconds (u64 in the host); modelled as Nat.
  The single u64 addition (last_payment + interval) cannot overflow for
  realistic ledger timestamps, so it is modelled as plain Nat addition.
* The u32 counters are modelled as Nat with an explicit trap when the
  checked increment would exceed u32::MAX (Rust's checked arithmetic
  panics there, which aborts and rolls back the invocation).
* Soroban Map is modelled as an association list with lookup (alGet) and
  replace-or-insert (alSet); only lookup semantics matter.
* Each public entry point returns Except Err Out: a Rust panic / failed
  assert / failed external call aborts the invocation, and the host
  rolls back every storage write, so an .error result commits nothing.
  The commit function applies this all-or-nothing semantics.
* invoker.require_auth() always succeeds for the invoker argument: the
  invoker parameter of each operation stands for the authenticated
  caller (authentication itself is an external collaborator).
* env.ledger().timestamp() and the external token contract call trf_from
  are the two external inputs; they are gathered in XEnv, with the token
  call abstracted by a boolean oracle transferOk payer payee amount.
-/

namespace PaymentGateway

/-- Opaque account identifier. -/
abbrev Address := Nat

/-- Short interned symbol. -/
abbrev Sym := String

/-- PaymentLink struct of the contract. -/
structure PaymentLink where
  merchant : Address
  amount : Int
  active : Bool
  description : Sym
deriving DecidableEq, Repr

/-- SubscriptionPlan struct of the contract. -/
structure SubscriptionPlan where
  merchant : Address
  amount : Int
  interval : Nat
  active : Bool
  name : Sym
deriving DecidableEq, Repr

/-- Subscription struct of the contract. -/
structure Subscription where
  subscriber : Address
  plan_id : Nat
  start_time : Nat
  last_payment : Nat
  active : Bool
deriving DecidableEq, Repr

/-- Association-list lookup, modelling soroban Map.get. -/
def alGet {α β : Type} [DecidableEq α] : List (α × β) → α → Option β
  | [], _ => none
  | kv :: t, k => if k = kv.1 then some kv.2 else alGet t k

/-- Association-list replace-or-insert, modelling soroban Map.set. -/
def alSet {α β : Type} [DecidableEq α] : List (α × β) → α → β → List (α × β)
  | [], k, v => [(k, v)]
  | kv :: t, k, v => if k = kv.1 then (k, v) :: t else kv :: alSet t k v

/-- The instance storage of the contract.  Keys OWNER and TOKEN are read
with expect (panic when absent), hence Option; MERCH, the counters and
the three maps are read with unwrap_or of an empty default, so the
default value is baked in and no Option is needed. -/
structure Store where
  owner : Option Address
  token : Option Address
  merch : List Address
  lctr : Nat
  pctr : Nat
  sctr : Nat
  plink : List (Nat × PaymentLink)
  splan : List (Nat × SubscriptionPlan)
  subs : List ((Address × Nat) × Subscription)
deriving DecidableEq, Repr

/-- External inputs of one invocation: the ledger timestamp and the
outcome of the external token-contract transfer call. -/
structure XEnv where
  now : Nat
  transferOk : Address → Address → Int → Bool

/-- One external token transfer performed by an invocation. -/
structure Transfer where
  payer : Address
  payee : Address
  amount : Int
deriving DecidableEq, Repr

/-- Events published by the contract (tags as in the source). -/
inductive Event where
  | MAdd (m : Address)
  | MRem (m : Address)
  | PLCr (id : Nat)
  | Payd (id : Nat)
  | SPCr (id : Nat)
  | Subd (id : Nat)
  | SPay (id : Nat)
  | SCnl (id : Nat)
deriving DecidableEq, Repr

/-- Abort causes: each corresponds to one expect/assert/panic site or to
the failure of the external transfer call. -/
inductive Err where
  | OwnerNotSet
  | OnlyOwner
  | AlreadyRegistered
  | NotRegistered
  | NotAuthorized
  | InvalidAmount
  | InvalidInterval
  | CtrOverflow
  | LinkNotFound
  | InactiveLink
  | PlanNotFound
  | PlanNotActive
  | PlanInactive
  | SubNotFound
  | SubInactive
  | AlreadyInactive
  | NotDue
  | TokenNotSet
  | TransferFailed
deriving DecidableEq, Repr

/-- Result of a successful invocation: the new store, the external
transfers performed (in order) and the events published (in order). -/
structure Out where
  store : Store
  transfers : List Transfer
  events : List Event
deriving DecidableEq, Repr

abbrev Res := Except Err Out

/-- Two to the power 32: a u32 counter increment traps when the result
would reach this bound. -/
def U32LIM : Nat := 4294967296

/-- init: sets OWNER, TOKEN, an empty MERCH list and zeroes the three
counters.  Note that it performs no already-initialized check and does
not touch the PLINK, SPLAN and SUBS maps. -/
def init (s : Store) (invoker token : Address) : Res :=
  .ok ⟨{ s with
      owner := some invoker
      token := some token
      merch := []
      lctr := 0
      pctr := 0
      sctr := 0 }, [], []⟩

/-- only_owner helper: reads OWNER with expect, then asserts that the
invoker is the owner. -/
def only_owner (s : Store) (invoker : Address) : Except Err Unit :=
  match s.owner with
  | none => .error .OwnerNotSet
  | some o => if invoker = o then .ok () else .error .OnlyOwner

/-- add_merchant: owner-only; rejects duplicates; appends (push_back). -/
def add_merchant (s : Store) (invoker merchant : Address) : Res :=
  match only_owner s invoker with
  | .error e => .error e
  | .ok _ =>
    if s.merch.contains merchant then .error .AlreadyRegistered
    else .ok ⟨{ s with merch := s.merch ++ [merchant] }, [], [.MAdd merchant]⟩

/-- remove_merchant: owner-only; requires presence; the manual loop of
the source keeps exactly the elements different from merchant, i.e. a
filter. -/
def remove_merchant (s : Store) (invoker merchant : Address) : Res :=
  match only_owner s invoker with
  | .error e => .error e
  | .ok _ =>
    if s.merch.contains merchant then
      .ok ⟨{ s with merch := s.merch.filter (fun m => m != merchant) }, [],
           [.MRem merchant]⟩
    else .error .NotRegistered

/-- is_merchant: membership in the MERCH list. -/
def is_merchant (s : Store) (who : Address) : Bool :=
  s.merch.contains who

/-- create_payment_link: merchant-gated, amount strictly positive,
allocates the next link id and stores an active link. -/
def create_payment_link (s : Store) (invoker : Address) (amount : Int)
    (description : Sym) : Res :=
  if is_merchant s invoker then
    if 0 < amount then
      if s.lctr + 1 < U32LIM then
        .ok ⟨{ s with
            lctr := s.lctr + 1
            plink := alSet s.plink (s.lctr + 1)
              ⟨invoker, amount, true, description⟩ }, [],
          [.PLCr (s.lctr + 1)]⟩
      else .error .CtrOverflow
    else .error .InvalidAmount
  else .error .NotAuthorized

/-- process_payment: looks up the link, requires it active, reads TOKEN
with expect, performs the external transfer and publishes Payd.  No
storage write occurs. -/
def process_payment (env : XEnv) (s : Store) (invoker : Address)
    (link_id : Nat) : Res :=
  match alGet s.plink link_id with
  | none => .error .LinkNotFound
  | some link =>
    if link.active then
      match s.token with
      | none => .error .TokenNotSet
      | some _ =>
        if env.transferOk invoker link.merchant link.amount then
          .ok ⟨s, [⟨invoker, link.merchant, link.amount⟩], [.Payd link_id]⟩
        else .error .TransferFailed
    else .error .InactiveLink

/-- create_subscription_plan: merchant-gated, amount strictly positive,
interval strictly positive, allocates the next plan id. -/
def create_subscription_plan (s : Store) (invoker : Address) (amount : Int)
    (interval : Nat) (name : Sym) : Res :=
  if is_merchant s invoker then
    if 0 < amount then
      if 0 < interval then
        if s.pctr + 1 < U32LIM then
          .ok ⟨{ s with
              pctr := s.pctr + 1
              splan := alSet s.splan (s.pctr + 1)
                ⟨invoker, amount, interval, true, name⟩ }, [],
            [.SPCr (s.pctr + 1)]⟩
        else .error .CtrOverflow
      else .error .InvalidInterval
    else .error .InvalidAmount
  else .error .NotAuthorized

/-- subscribe: requires an active plan, allocates the next subscription
id, stores the subscription keyed by (invoker, id) with
start_time = last_payment = now, then reads TOKEN and performs the first
billing transfer.  In the source the storage writes happen before the
external call; a failed call aborts and rolls them back, which the
Except result models. -/
def subscribe (env : XEnv) (s : Store) (invoker : Address)
    (plan_id : Nat) : Res :=
  match alGet s.splan plan_id with
  | none => .error .PlanNotFound
  | some plan =>
    if plan.active then
      if s.sctr + 1 < U32LIM then
        match s.token with
        | none => .error .TokenNotSet
        | some _ =>
          if env.transferOk invoker plan.merchant plan.amount then
            .ok ⟨{ s with
                sctr := s.sctr + 1
                subs := alSet s.subs (invoker, s.sctr + 1)
                  ⟨invoker, plan_id, env.now, env.now, true⟩ },
              [⟨invoker, plan.merchant, plan.amount⟩],
              [.Subd (s.sctr + 1), .SPay (s.sctr + 1)]⟩
          else .error .TransferFailed
      else .error .CtrOverflow
    else .error .PlanNotActive

/-- process_subscription_payment: looks up the subscription under
(subscriber, id), requires it and its plan active, fails NotDue while
now is before last_payment + interval, otherwise transfers and sets
last_payment := now. -/
def process_subscription_payment (env : XEnv) (s : Store)
    (invoker subscriber : Address) (subscription_id : Nat) : Res :=
  match alGet s.subs (subscriber, subscription_id) with
  | none => .error .SubNotFound
  | some sub =>
    if sub.active then
      match alGet s.splan sub.plan_id with
      | none => .error .PlanNotFound
      | some plan =>
        if plan.active then
          if sub.last_payment + plan.interval ≤ env.now then
            match s.token with
            | none => .error .TokenNotSet
            | some _ =>
              if env.transferOk subscriber plan.merchant plan.amount then
                let sub2 : Subscription := { sub with last_payment := env.now }
                .ok ⟨{ s with
                    subs := alSet s.subs (subscriber, subscription_id) sub2 },
                  [⟨subscriber, plan.merchant, plan.amount⟩],
                  [.SPay subscription_id]⟩
              else .error .TransferFailed
          else .error .NotDue
        else .error .PlanInactive
    else .error .SubInactive

/-- cancel_subscription: the source binds subber = invoker and looks the
subscription up under the key (subber, subscription_id), i.e. under the
invoker's own address; then asserts activity, then the authorization
disjunction. -/
def cancel_subscription (s : Store) (invoker : Address)
    (subscription_id : Nat) : Res :=
  match alGet s.subs (invoker, subscription_id) with
  | none => .error .SubNotFound
  | some sub =>
    if sub.active then
      if sub.subscriber = invoker ∨ is_merchant s invoker then
        let sub2 : Subscription := { sub with active := false }
        .ok ⟨{ s with
            subs := alSet s.subs (invoker, subscription_id) sub2 }, [],
          [.SCnl subscription_id]⟩
      else .error .NotAuthorized
    else .error .AlreadyInactive

/-- deactivate_payment_link: merchant-of-link only; sets active false.
No event is published. -/
def deactivate_payment_link (s : Store) (invoker : Address)
    (link_id : Nat) : Res :=
  match alGet s.plink link_id with
  | none => .error .LinkNotFound
  | some link =>
    if link.merchant = invoker then
      if link.active then
        let link2 : PaymentLink := { link with active := false }
        .ok ⟨{ s with plink := alSet s.plink link_id link2 }, [], []⟩
      else .error .AlreadyInactive
    else .error .NotAuthorized

/-- deactivate_subscription_plan: merchant-of-plan only; sets active
false.  No event is published. -/
def deactivate_subscription_plan (s : Store) (invoker : Address)
    (plan_id : Nat) : Res :=
  match alGet s.splan plan_id with
  | none => .error .PlanNotFound
  | some plan =>
    if plan.merchant = invoker then
      if plan.active then
        let plan2 : SubscriptionPlan := { plan with active := false }
        .ok ⟨{ s with splan := alSet s.splan plan_id plan2 }, [], []⟩
      else .error .AlreadyInactive
    else .error .NotAuthorized

/-- The public surface of the contract. -/
inductive Op where
  | init (invoker token : Address)
  | addMerchant (invoker merchant : Address)
  | removeMerchant (invoker merchant : Address)
  | createPaymentLink (invoker : Address) (amount : Int) (description : Sym)
  | processPayment (invoker : Address) (link_id : Nat)
  | createSubscriptionPlan (invoker : Address) (amount : Int)
      (interval : Nat) (name : Sym)
  | subscribe (invoker : Address) (plan_id : Nat)
  | processSubscriptionPayment (invoker subscriber : Address)
      (subscription_id : Nat)
  | cancelSubscription (invoker : Address) (subscription_id : Nat)
  | deactivatePaymentLink (invoker : Address) (link_id : Nat)
  | deactivateSubscriptionPlan (invoker : Address) (plan_id : Nat)

/-- Dispatch one public invocation. -/
def exec (env : XEnv) (s : Store) : Op → Res
  | .init inv tok => init s inv tok
  | .addMerchant inv m => add_merchant s inv m
  | .removeMerchant inv m => remove_merchant s inv m
  | .createPaymentLink inv a d => create_payment_link s inv a d
  | .processPayment inv lid => process_payment env s inv lid
  | .createSubscriptionPlan inv a i n => create_subscription_plan s inv a i n
  | .subscribe inv pid => subscribe env s inv pid
  | .processSubscriptionPayment inv subr sid =>
      process_subscription_payment env s inv subr sid
  | .cancelSubscription inv sid => cancel_subscription s inv sid
  | .deactivatePaymentLink inv lid => deactivate_payment_link s inv lid
  | .deactivateSubscriptionPlan inv pid => deactivate_subscription_plan s inv pid

/-- All-or-nothing application: a failing invocation commits nothing. -/
def commit (env : XEnv) (s : Store) (op : Op) : Store :=
  match exec env s op with
  | .ok out => out.store
  | .error _ => s

/-- One trace step: an operation together with its external inputs. -/
def stepTr (s : Store) (q : XEnv × Op) : Store :=
  commit q.1 s q.2

/-- Run a trace of invocations from a starting store. -/
def runTrace (tr : List (XEnv × Op)) (s : Store) : Store :=
  tr.foldl stepTr s

/-- Fresh contract instance: the persistent store is empty (OWNER and
TOKEN absent, every unwrap_or default in force). -/
def emptyStore : Store :=
  ⟨none, none, [], 0, 0, 0, [], [], []⟩

/-- A store is reachable when some trace of public invocations produces
it from a fresh instance. -/
def Reachable (s : Store) : Prop :=
  ∃ tr, runTrace tr emptyStore = s

/-- Recognizer for the init operation. -/
def isInitOp : Op → Bool
  | .init _ _ => true
  | _ => false

/-! ### Association-list lemmas -/

lemma alGet_alSet_self {α β : Type} [DecidableEq α] (l : List (α × β))
    (k : α) (v : β) : alGet (alSet l k v) k = some v := by
  induction l with
  | nil => simp [alSet, alGet]
  | cons kv t ih =>
    obtain ⟨k1, v1⟩ := kv
    by_cases h : k = k1
    · subst h
      simp [alSet, alGet]
    · simp [alSet, alGet, h, ih]

lemma alGet_alSet_ne {α β : Type} [DecidableEq α] (l : List (α × β))
    (k k2 : α) (v : β) (h : k2 ≠ k) :
    alGet (alSet l k v) k2 = alGet l k2 := by
  induction l with
  | nil => simp [alSet, alGet, h]
  | cons kv t ih =>
    obtain ⟨k1, v1⟩ := kv
    by_cases hk : k = k1
    · subst hk
      simp [alSet, alGet, h]
    · simp [alSet, alGet, hk, ih]

/-! ### Shape of the committed store, one lemma per operation -/

lemma commit_init_shape (env : XEnv) (s : Store) (inv tok : Address) :
    commit env s (.init inv tok) = { s with
      owner := some inv
      token := some tok
      merch := []
      lctr := 0
      pctr := 0
      sctr := 0 } := rfl

lemma commit_addMerchant_shape (env : XEnv) (s : Store) (inv m : Address) :
    commit env s (.addMerchant inv m) = s ∨
    commit env s (.addMerchant inv m) = { s with merch := s.merch ++ [m] } := by
  unfold commit exec add_merchant
  cases ho : only_owner s inv with
  | error e => simp [ho]
  | ok u =>
    by_cases hc : m ∈ s.merch <;> simp [ho, hc]

lemma commit_removeMerchant_shape (env : XEnv) (s : Store) (inv m : Address) :
    commit env s (.removeMerchant inv m) = s ∨
    commit env s (.removeMerchant inv m) =
      { s with merch := s.merch.filter (fun x => x != m) } := by
  unfold commit exec remove_merchant
  cases ho : only_owner s inv with
  | error e => simp [ho]
  | ok u =>
    by_cases hc : m ∈ s.merch <;> simp [ho, hc]

lemma commit_createPaymentLink_shape (env : XEnv) (s : Store) (inv : Address)
    (a : Int) (d : Sym) :
    commit env s (.createPaymentLink inv a d) = s ∨
    commit env s (.createPaymentLink inv a d) = { s with
      lctr := s.lctr + 1
      plink := alSet s.plink (s.lctr + 1) ⟨inv, a, true, d⟩ } := by
  unfold commit exec create_payment_link
  cases hm : is_merchant s inv <;>
    by_cases ha : (0:Int) < a <;>
    by_cases hl : s.lctr + 1 < U32LIM <;>
    simp [hm, ha, hl]

lemma commit_processPayment_frame (env : XEnv) (s : Store) (inv : Address)
    (lid : Nat) : commit env s (.processPayment inv lid) = s := by
  unfold commit exec process_payment
  cases h : alGet s.plink lid with
  | none => simp [h]
  | some link =>
    cases ha : link.active
    · simp [h, ha]
    · cases ht : s.token with
      | none => simp [h, ha, ht]
      | some tok =>
        cases htr : env.transferOk inv link.merchant link.amount <;>
          simp [h, ha, ht, htr]

lemma commit_createPlan_shape (env : XEnv) (s : Store) (inv : Address)
    (a : Int) (iv : Nat) (n : Sym) :
    commit env s (.createSubscriptionPlan inv a iv n) = s ∨
    commit env s (.createSubscriptionPlan inv a iv n) = { s with
      pctr := s.pctr + 1
      splan := alSet s.splan (s.pctr + 1) ⟨inv, a, iv, true, n⟩ } := by
  unfold commit exec create_subscription_plan
  cases hm : is_merchant s inv <;>
    by_cases ha : (0:Int) < a <;>
    by_cases hi : 0 < iv <;>
    by_cases hp : s.pctr + 1 < U32LIM <;>
    simp [hm, ha, hi, hp]

lemma commit_subscribe_shape (env : XEnv) (s : Store) (inv : Address)
    (pid : Nat) :
    commit env s (.subscribe inv pid) = s ∨
    commit env s (.subscribe inv pid) = { s with
      sctr := s.sctr + 1
      subs := alSet s.subs (inv, s.sctr + 1)
        ⟨inv, pid, env.now, env.now, true⟩ } := by
  unfold commit exec subscribe
  cases hp : alGet s.splan pid with
  | none => simp [hp]
  | some plan =>
    cases hact : plan.active
    · simp [hp, hact]
    · by_cases hc : s.sctr + 1 < U32LIM
      · cases ht : s.token with
        | none => simp [hp, hact, hc, ht]
        | some tok =>
          cases htr : env.transferOk inv plan.merchant plan.amount <;>
            simp [hp, hact, hc, ht, htr]
      · simp [hp, hact, hc]

lemma commit_processSubPayment_shape (env : XEnv) (s : Store)
    (inv subr : Address) (sid : Nat) :
    commit env s (.processSubscriptionPayment inv subr sid) = s ∨
    ∃ sub, alGet s.subs (subr, sid) = some sub ∧ sub.active = true ∧
      commit env s (.processSubscriptionPayment inv subr sid) =
        { s with
          subs := alSet s.subs (subr, sid) { sub with last_payment := env.now } } := by
  unfold commit exec process_subscription_payment
  cases hs : alGet s.subs (subr, sid) with
  | none => simp [hs]
  | some sub =>
    cases hact : sub.active
    · simp [hs, hact]
    · cases hp : alGet s.splan sub.plan_id with
      | none => simp [hs, hact, hp]
      | some plan =>
        cases hpact : plan.active
        · simp [hs, hact, hp, hpact]
        · by_cases hdue : sub.last_payment + plan.interval ≤ env.now
          · cases ht : s.token with
            | none => simp [hs, hact, hp, hpact, hdue, ht]
            | some tok =>
              cases htr : env.transferOk subr plan.merchant plan.amount
              · simp [hs, hact, hp, hpact, hdue, ht, htr]
              · right
                exact ⟨sub, rfl, hact,
                  by simp [hs, hact, hp, hpact, hdue, ht, htr]⟩
          · simp [hs, hact, hp, hpact, hdue]

lemma commit_cancel_shape (env : XEnv) (s : Store) (inv : Address)
    (sid : Nat) :
    commit env s (.cancelSubscription inv sid) = s ∨
    ∃ sub, alGet s.subs (inv, sid) = some sub ∧
      commit env s (.cancelSubscription inv sid) =
        { s with subs := alSet s.subs (inv, sid) { sub with active := false } } := by
  unfold commit exec cancel_subscription
  cases hs : alGet s.subs (inv, sid) with
  | none => simp [hs]
  | some sub =>
    cases hact : sub.active
    · simp [hs, hact]
    · by_cases hauth : sub.subscriber = inv ∨ is_merchant s inv
      · right
        exact ⟨sub, rfl, by simp [hs, hact, hauth]⟩
      · simp [hs, hact, hauth]

lemma commit_deactivateLink_shape (env : XEnv) (s : Store) (inv : Address)
    (lid : Nat) :
    commit env s (.deactivatePaymentLink inv lid) = s ∨
    ∃ link, alGet s.plink lid = some link ∧
      commit env s (.deactivatePaymentLink inv lid) =
        { s with plink := alSet s.plink lid { link with active := false } } := by
  unfold commit exec deactivate_payment_link
  cases hl : alGet s.plink lid with
  | none => simp [hl]
  | some link =>
    by_cases hm : link.merchant = inv
    · cases hact : link.active
      · simp [hl, hm, hact]
      · right
        exact ⟨link, rfl, by simp [hl, hm, hact]⟩
    · simp [hl, hm]

lemma commit_deactivatePlan_shape (env : XEnv) (s : Store) (inv : Address)
    (pid : Nat) :
    commit env s (.deactivateSubscriptionPlan inv pid) = s ∨
    ∃ plan, alGet s.splan pid = some plan ∧
      commit env s (.deactivateSubscriptionPlan inv pid) =
        { s with splan := alSet s.splan pid { plan with active := false } } := by
  unfold commit exec deactivate_subscription_plan
  cases hp : alGet s.splan pid with
  | none => simp [hp]
  | some plan =>
    by_cases hm : plan.merchant = inv
    · cases hact : plan.active
      · simp [hp, hm, hact]
      · right
        exact ⟨plan, rfl, by simp [hp, hm, hact]⟩
    · simp [hp, hm]

/-! ### Preservation predicate: what every non-init invocation keeps -/

/-- Pres s t: going from store s to store t, the owner and token are
unchanged, the three counters do not decrease, and every deactivated
entity whose id is within the already-allocated range stays present and
deactivated. -/
def Pres (s t : Store) : Prop :=
  t.owner = s.owner ∧ t.token = s.token ∧
  s.lctr ≤ t.lctr ∧ s.pctr ≤ t.pctr ∧ s.sctr ≤ t.sctr ∧
  (∀ i l, alGet s.plink i = some l → l.active = false → i ≤ s.lctr →
    ∃ l2, alGet t.plink i = some l2 ∧ l2.active = false) ∧
  (∀ i p, alGet s.splan i = some p → p.active = false → i ≤ s.pctr →
    ∃ p2, alGet t.splan i = some p2 ∧ p2.active = false) ∧
  (∀ a i su, alGet s.subs (a, i) = some su → su.active = false →
    i ≤ s.sctr →
    ∃ su2, alGet t.subs (a, i) = some su2 ∧ su2.active = false)

lemma pres_refl (s : Store) : Pres s s :=
  ⟨rfl, rfl, le_refl _, le_refl _, le_refl _,
   fun _ l h ha _ => ⟨l, h, ha⟩,
   fun _ p h ha _ => ⟨p, h, ha⟩,
   fun _ _ su h ha _ => ⟨su, h, ha⟩⟩

lemma pres_trans {s t u : Store} (h1 : Pres s t) (h2 : Pres t u) :
    Pres s u := by
  obtain ⟨o1, k1, l1, p1, s1, fl1, fp1, fs1⟩ := h1
  obtain ⟨o2, k2, l2, p2, s2, fl2, fp2, fs2⟩ := h2
  refine ⟨o2.trans o1, k2.trans k1, l1.trans l2, p1.trans p2, s1.trans s2,
    ?_, ?_, ?_⟩
  · intro i l h ha hi
    obtain ⟨lm, hm, ham⟩ := fl1 i l h ha hi
    exact fl2 i lm hm ham (hi.trans l1)
  · intro i p h ha hi
    obtain ⟨pm, hm, ham⟩ := fp1 i p h ha hi
    exact fp2 i pm hm ham (hi.trans p1)
  · intro a i su h ha hi
    obtain ⟨sm, hm, ham⟩ := fs1 a i su h ha hi
    exact fs2 a i sm hm ham (hi.trans s1)

/-- Stores that differ only in the merchant registry are related. -/
lemma pres_of_maps_eq {s t : Store} (ho : t.owner = s.owner)
    (hk : t.token = s.token) (hl : t.lctr = s.lctr) (hp : t.pctr = s.pctr)
    (hs : t.sctr = s.sctr) (hpl : t.plink = s.plink)
    (hsp : t.splan = s.splan) (hsu : t.subs = s.subs) : Pres s t := by
  refine ⟨ho, hk, le_of_eq hl.symm, le_of_eq hp.symm, le_of_eq hs.symm,
    ?_, ?_, ?_⟩
  · intro i l h ha _
    exact ⟨l, by rw [hpl]; exact h, ha⟩
  · intro i p h ha _
    exact ⟨p, by rw [hsp]; exact h, ha⟩
  · intro a i su h ha _
    exact ⟨su, by rw [hsu]; exact h, ha⟩

/-- Every public operation other than init satisfies Pres. -/
lemma commit_pres (env : XEnv) (s : Store) (op : Op)
    (h : isInitOp op = false) : Pres s (commit env s op) := by
  cases op with
  | init inv tok => simp [isInitOp] at h
  | addMerchant inv m =>
    rcases commit_addMerchant_shape env s inv m with hC | hC <;> rw [hC]
    · exact pres_refl s
    · exact pres_of_maps_eq rfl rfl rfl rfl rfl rfl rfl rfl
  | removeMerchant inv m =>
    rcases commit_removeMerchant_shape env s inv m with hC | hC <;> rw [hC]
    · exact pres_refl s
    · exact pres_of_maps_eq rfl rfl rfl rfl rfl rfl rfl rfl
  | processPayment inv lid =>
    rw [commit_processPayment_frame]
    exact pres_refl s
  | createPaymentLink inv a d =>
    rcases commit_createPaymentLink_shape env s inv a d with hC | hC <;>
      rw [hC]
    · exact pres_refl s
    · refine ⟨rfl, rfl, Nat.le_succ _, le_refl _, le_refl _, ?_, ?_, ?_⟩
      · intro i l hg ha hi
        refine ⟨l, ?_, ha⟩
        have hne : i ≠ s.lctr + 1 := by omega
        show alGet (alSet s.plink (s.lctr + 1) ⟨inv, a, true, d⟩) i =
          some l
        rw [alGet_alSet_ne _ _ _ _ hne]
        exact hg
      · intro i p hg ha _
        exact ⟨p, hg, ha⟩
      · intro a2 i su hg ha _
        exact ⟨su, hg, ha⟩
  | createSubscriptionPlan inv a iv n =>
    rcases commit_createPlan_shape env s inv a iv n with hC | hC <;> rw [hC]
    · exact pres_refl s
    · refine ⟨rfl, rfl, le_refl _, Nat.le_succ _, le_refl _, ?_, ?_, ?_⟩
      · intro i l hg ha _
        exact ⟨l, hg, ha⟩
      · intro i p hg ha hi
        refine ⟨p, ?_, ha⟩
        have hne : i ≠ s.pctr + 1 := by omega
        show alGet (alSet s.splan (s.pctr + 1) ⟨inv, a, iv, true, n⟩) i =
          some p
        rw [alGet_alSet_ne _ _ _ _ hne]
        exact hg
      · intro a2 i su hg ha _
        exact ⟨su, hg, ha⟩
  | subscribe inv pid =>
    rcases commit_subscribe_shape env s inv pid with hC | hC <;> rw [hC]
    · exact pres_refl s
    · refine ⟨rfl, rfl, le_refl _, le_refl _, Nat.le_succ _, ?_, ?_, ?_⟩
      · intro i l hg ha _
        exact ⟨l, hg, ha⟩
      · intro i p hg ha _
        exact ⟨p, hg, ha⟩
      · intro a2 i su hg ha hi
        refine ⟨su, ?_, ha⟩
        have hne : (a2, i) ≠ (inv, s.sctr + 1) := by
          intro hk
          rw [Prod.mk.injEq] at hk
          omega
        show alGet (alSet s.subs (inv, s.sctr + 1)
          ⟨inv, pid, env.now, env.now, true⟩) (a2, i) = some su
        rw [alGet_alSet_ne _ _ _ _ hne]
        exact hg
  | processSubscriptionPayment inv subr sid =>
    rcases commit_processSubPayment_shape env s inv subr sid with
      hC | ⟨sub, hsub, hact, hC⟩ <;> rw [hC]
    · exact pres_refl s
    · refine ⟨rfl, rfl, le_refl _, le_refl _, le_refl _, ?_, ?_, ?_⟩
      · intro i l hg ha _
        exact ⟨l, hg, ha⟩
      · intro i p hg ha _
        exact ⟨p, hg, ha⟩
      · intro a2 i su hg ha _
        by_cases hk : (a2, i) = (subr, sid)
        · rw [hk] at hg
          rw [hg] at hsub
          injection hsub with hsu
          rw [← hsu] at hact
          rw [hact] at ha
          exact absurd ha (by simp)
        · refine ⟨su, ?_, ha⟩
          show alGet (alSet s.subs (subr, sid)
            { sub with last_payment := env.now }) (a2, i) = some su
          rw [alGet_alSet_ne _ _ _ _ hk]
          exact hg
  | cancelSubscription inv sid =>
    rcases commit_cancel_shape env s inv sid with hC | ⟨sub, hsub, hC⟩ <;>
      rw [hC]
    · exact pres_refl s
    · refine ⟨rfl, rfl, le_refl _, le_refl _, le_refl _, ?_, ?_, ?_⟩
      · intro i l hg ha _
        exact ⟨l, hg, ha⟩
      · intro i p hg ha _
        exact ⟨p, hg, ha⟩
      · intro a2 i su hg ha _
        by_cases hk : (a2, i) = (inv, sid)
        · refine ⟨{ sub with active := false }, ?_, rfl⟩
          rw [hk]
          exact alGet_alSet_self _ _ _
        · refine ⟨su, ?_, ha⟩
          show alGet (alSet s.subs (inv, sid) { sub with active := false })
            (a2, i) = some su
          rw [alGet_alSet_ne _ _ _ _ hk]
          exact hg
  | deactivatePaymentLink inv lid =>
    rcases commit_deactivateLink_shape env s inv lid with
      hC | ⟨link, hlink, hC⟩ <;> rw [hC]
    · exact pres_refl s
    · refine ⟨rfl, rfl, le_refl _, le_refl _, le_refl _, ?_, ?_, ?_⟩
      · intro i l hg ha _
        by_cases hk : i = lid
        · refine ⟨{ link with active := false }, ?_, rfl⟩
          rw [hk]
          exact alGet_alSet_self _ _ _
        · refine ⟨l, ?_, ha⟩
          show alGet (alSet s.plink lid { link with active := false }) i =
            some l
          rw [alGet_alSet_ne _ _ _ _ hk]
          exact hg
      · intro i p hg ha _
        exact ⟨p, hg, ha⟩
      · intro a2 i su hg ha _
        exact ⟨su, hg, ha⟩
  | deactivateSubscriptionPlan inv pid =>
    rcases commit_deactivatePlan_shape env s inv pid with
      hC | ⟨plan, hplan, hC⟩ <;> rw [hC]
    · exact pres_refl s
    · refine ⟨rfl, rfl, le_refl _, le_refl _, le_refl _, ?_, ?_, ?_⟩
      · intro i l hg ha _
        exact ⟨l, hg, ha⟩
      · intro i p hg ha _
        by_cases hk : i = pid
        · refine ⟨{ plan with active := false }, ?_, rfl⟩
          rw [hk]
          exact alGet_alSet_self _ _ _
        · refine ⟨p, ?_, ha⟩
          show alGet (alSet s.splan pid { plan with active := false }) i =
            some p
          rw [alGet_alSet_ne _ _ _ _ hk]
          exact hg
      · intro a2 i su hg ha _
        exact ⟨su, hg, ha⟩

/-- Pres extends to whole traces that contain no init invocation. -/
lemma runTrace_pres (tr : List (XEnv × Op)) (s : Store)
    (h : ∀ q ∈ tr, isInitOp q.2 = false) : Pres s (runTrace tr s) := by
  induction tr generalizing s with
  | nil => exact pres_refl s
  | cons q t ih =>
    have h1 : isInitOp q.2 = false := h q (List.mem_cons_self _ _)
    have h2 : ∀ p ∈ t, isInitOp p.2 = false :=
      fun p hp => h p (List.mem_cons_of_mem _ hp)
    exact pres_trans (commit_pres q.1 s q.2 h1) (ih (stepTr s q) h2)

/-! ### Key/subscriber well-formedness of the subscriptions map -/

/-- Every subscription stored under a key (a, i) records a as its
subscriber. -/
def SubsWF (s : Store) : Prop :=
  ∀ a i su, alGet s.subs (a, i) = some su → su.subscriber = a

lemma subsWF_empty : SubsWF emptyStore := by
  intro a i su hg
  simp [emptyStore, alGet] at hg

lemma subsWF_commit (env : XEnv) (s : Store) (op : Op) (h : SubsWF s) :
    SubsWF (commit env s op) := by
  cases op with
  | init inv tok =>
    rw [commit_init_shape]
    intro a i su hg
    exact h a i su hg
  | addMerchant inv m =>
    rcases commit_addMerchant_shape env s inv m with hC | hC <;> rw [hC] <;>
      exact fun a i su hg => h a i su hg
  | removeMerchant inv m =>
    rcases commit_removeMerchant_shape env s inv m with hC | hC <;>
      rw [hC] <;> exact fun a i su hg => h a i su hg
  | createPaymentLink inv a d =>
    rcases commit_createPaymentLink_shape env s inv a d with hC | hC <;>
      rw [hC] <;> exact fun a2 i su hg => h a2 i su hg
  | processPayment inv lid =>
    rw [commit_processPayment_frame]
    exact h
  | createSubscriptionPlan inv a iv n =>
    rcases commit_createPlan_shape env s inv a iv n with hC | hC <;>
      rw [hC] <;> exact fun a2 i su hg => h a2 i su hg
  | subscribe inv pid =>
    rcases commit_subscribe_shape env s inv pid with hC | hC <;> rw [hC]
    · exact h
    · intro a i su hg
      by_cases hk : (a, i) = (inv, s.sctr + 1)
      · rw [hk, alGet_alSet_self] at hg
        injection hg with hsu
        rw [Prod.mk.injEq] at hk
        rw [← hsu]
        exact hk.1.symm
      · rw [alGet_alSet_ne _ _ _ _ hk] at hg
        exact h a i su hg
  | processSubscriptionPayment inv subr sid =>
    rcases commit_processSubPayment_shape env s inv subr sid with
      hC | ⟨sub, hsub, hact, hC⟩ <;> rw [hC]
    · exact h
    · intro a i su hg
      by_cases hk : (a, i) = (subr, sid)
      · rw [hk, alGet_alSet_self] at hg
        injection hg with hsu
        have hbase := h subr sid sub hsub
        rw [Prod.mk.injEq] at hk
        rw [← hsu]
        show sub.subscriber = a
        rw [hk.1]
        exact hbase
      · rw [alGet_alSet_ne _ _ _ _ hk] at hg
        exact h a i su hg
  | cancelSubscription inv sid =>
    rcases commit_cancel_shape env s inv sid with hC | ⟨sub, hsub, hC⟩ <;>
      rw [hC]
    · exact h
    · intro a i su hg
      by_cases hk : (a, i) = (inv, sid)
      · rw [hk, alGet_alSet_self] at hg
        injection hg with hsu
        have hbase := h inv sid sub hsub
        rw [Prod.mk.injEq] at hk
        rw [← hsu]
        show sub.subscriber = a
        rw [hk.1]
        exact hbase
      · rw [alGet_alSet_ne _ _ _ _ hk] at hg
        exact h a i su hg
  | deactivatePaymentLink inv lid =>
    rcases commit_deactivateLink_shape env s inv lid with
      hC | ⟨link, hlink, hC⟩ <;> rw [hC] <;>
      exact fun a i su hg => h a i su hg
  | deactivateSubscriptionPlan inv pid =>
    rcases commit_deactivatePlan_shape env s inv pid with
      hC | ⟨plan, hplan, hC⟩ <;> rw [hC] <;>
      exact fun a i su hg => h a i su hg

lemma subsWF_run (tr : List (XEnv × Op)) (s : Store) (h : SubsWF s) :
    SubsWF (runTrace tr s) := by
  induction tr generalizing s with
  | nil => exact h
  | cons q t ih => exact ih (stepTr s q) (subsWF_commit q.1 s q.2 h)

/-! ### Success inversion lemmas -/

lemma create_payment_link_ok {s : Store} {inv : Address} {a : Int}
    {d : Sym} {out : Out} (h : create_payment_link s inv a d = .ok out) :
    is_merchant s inv = true ∧ 0 < a ∧ s.lctr + 1 < U32LIM ∧
    out = ⟨{ s with
      lctr := s.lctr + 1
      plink := alSet s.plink (s.lctr + 1) ⟨inv, a, true, d⟩ }, [],
      [.PLCr (s.lctr + 1)]⟩ := by
  by_cases hm : is_merchant s inv
  · by_cases ha : (0:Int) < a
    · by_cases hl : s.lctr + 1 < U32LIM
      · simp [create_payment_link, hm, ha, hl] at h
        exact ⟨hm, ha, hl, h.symm⟩
      · simp [create_payment_link, hm, ha, hl] at h
    · simp [create_payment_link, hm, ha] at h
  · simp [create_payment_link, hm] at h

lemma create_subscription_plan_ok {s : Store} {inv : Address} {a : Int}
    {iv : Nat} {n : Sym} {out : Out}
    (h : create_subscription_plan s inv a iv n = .ok out) :
    is_merchant s inv = true ∧ 0 < a ∧ 0 < iv ∧ s.pctr + 1 < U32LIM ∧
    out = ⟨{ s with
      pctr := s.pctr + 1
      splan := alSet s.splan (s.pctr + 1) ⟨inv, a, iv, true, n⟩ }, [],
      [.SPCr (s.pctr + 1)]⟩ := by
  by_cases hm : is_merchant s inv
  · by_cases ha : (0:Int) < a
    · by_cases hi : 0 < iv
      · by_cases hp : s.pctr + 1 < U32LIM
        · simp [create_subscription_plan, hm, ha, hi, hp] at h
          exact ⟨hm, ha, hi, hp, h.symm⟩
        · simp [create_subscription_plan, hm, ha, hi, hp] at h
      · simp [create_subscription_plan, hm, ha, hi] at h
    · simp [create_subscription_plan, hm, ha] at h
  · simp [create_subscription_plan, hm] at h

lemma subscribe_ok {env : XEnv} {s : Store} {inv : Address} {pid : Nat}
    {out : Out} (h : subscribe env s inv pid = .ok out) :
    ∃ plan tok, alGet s.splan pid = some plan ∧ plan.active = true ∧
      s.sctr + 1 < U32LIM ∧ s.token = some tok ∧
      env.transferOk inv plan.merchant plan.amount = true ∧
      out = ⟨{ s with
        sctr := s.sctr + 1
        subs := alSet s.subs (inv, s.sctr + 1)
          ⟨inv, pid, env.now, env.now, true⟩ },
        [⟨inv, plan.merchant, plan.amount⟩],
        [.Subd (s.sctr + 1), .SPay (s.sctr + 1)]⟩ := by
  cases hp : alGet s.splan pid with
  | none => simp [subscribe, hp] at h
  | some plan =>
    cases hact : plan.active
    · simp [subscribe, hp, hact] at h
    · by_cases hc : s.sctr + 1 < U32LIM
      · cases ht : s.token with
        | none => simp [subscribe, hp, hact, hc, ht] at h
        | some tok =>
          cases htr : env.transferOk inv plan.merchant plan.amount
          · simp [subscribe, hp, hact, hc, ht, htr] at h
          · refine ⟨plan, tok, rfl, hact, hc, rfl, htr, ?_⟩
            simp [subscribe, hp, hact, hc, ht, htr] at h
            exact h.symm
      · simp [subscribe, hp, hact, hc] at h

lemma remove_merchant_ok {s : Store} {inv m : Address} {out : Out}
    (h : remove_merchant s inv m = .ok out) :
    ∃ o, s.owner = some o ∧ inv = o ∧ m ∈ s.merch ∧
    out = ⟨{ s with merch := s.merch.filter (fun x => x != m) }, [],
      [.MRem m]⟩ := by
  cases ho : s.owner with
  | none => simp [remove_merchant, only_owner, ho] at h
  | some o =>
    by_cases hi : inv = o
    · by_cases hm : m ∈ s.merch
      · refine ⟨o, rfl, hi, hm, ?_⟩
        simp [remove_merchant, only_owner, ho, hi, hm] at h
        exact h.symm
      · simp [remove_merchant, only_owner, ho, hi, hm] at h
    · simp [remove_merchant, only_owner, ho, hi] at h

/-! ### Issued identifiers per namespace -/

/-- The three independent id namespaces. -/
inductive NS where
  | links
  | plans
  | subsNS

/-- The namespace's counter in a store. -/
def ctrOf : NS → Store → Nat
  | .links, s => s.lctr
  | .plans, s => s.pctr
  | .subsNS, s => s.sctr

/-- The id issued by a successful create operation of the given
namespace (none for failures and for all other operations): the create
stores its new entity under the freshly incremented counter, so the
issued id is the committed counter value. -/
def issuedId (ns : NS) (env : XEnv) (s : Store) (op : Op) : Option Nat :=
  match ns, op with
  | .links, .createPaymentLink inv a d =>
    match create_payment_link s inv a d with
    | .ok out => some out.store.lctr
    | .error _ => none
  | .plans, .createSubscriptionPlan inv a iv n =>
    match create_subscription_plan s inv a iv n with
    | .ok out => some out.store.pctr
    | .error _ => none
  | .subsNS, .subscribe inv pid =>
    match subscribe env s inv pid with
    | .ok out => some out.store.sctr
    | .error _ => none
  | _, _ => none

lemma issuedId_some {ns : NS} {env : XEnv} {s : Store} {op : Op} {a : Nat}
    (h : issuedId ns env s op = some a) :
    a = ctrOf ns s + 1 ∧ ctrOf ns (commit env s op) = a ∧
    isInitOp op = false := by
  cases ns with
  | links =>
    cases op with
    | createPaymentLink inv amt d =>
      cases hex : create_payment_link s inv amt d with
      | error e => simp [issuedId, hex] at h
      | ok out =>
        obtain ⟨hm, hA, hl, hout⟩ := create_payment_link_ok hex
        subst hout
        simp [issuedId, hex] at h
        refine ⟨h.symm, ?_, rfl⟩
        show (commit env s (.createPaymentLink inv amt d)).lctr = a
        simp [commit, exec, hex]
        exact h
    | init x y => simp [issuedId] at h
    | addMerchant x y => simp [issuedId] at h
    | removeMerchant x y => simp [issuedId] at h
    | processPayment x y => simp [issuedId] at h
    | createSubscriptionPlan x y z w => simp [issuedId] at h
    | subscribe x y => simp [issuedId] at h
    | processSubscriptionPayment x y z => simp [issuedId] at h
    | cancelSubscription x y => simp [issuedId] at h
    | deactivatePaymentLink x y => simp [issuedId] at h
    | deactivateSubscriptionPlan x y => simp [issuedId] at h
  | plans =>
    cases op with
    | createSubscriptionPlan inv amt iv n =>
      cases hex : create_subscription_plan s inv amt iv n with
      | error e => simp [issuedId, hex] at h
      | ok out =>
        obtain ⟨hm, hA, hi, hp, hout⟩ := create_subscription_plan_ok hex
        subst hout
        simp [issuedId, hex] at h
        refine ⟨h.symm, ?_, rfl⟩
        show (commit env s (.createSubscriptionPlan inv amt iv n)).pctr = a
        simp [commit, exec, hex]
        exact h
    | init x y => simp [issuedId] at h
    | addMerchant x y => simp [issuedId] at h
    | removeMerchant x y => simp [issuedId] at h
    | processPayment x y => simp [issuedId] at h
    | createPaymentLink x y z => simp [issuedId] at h
    | subscribe x y => simp [issuedId] at h
    | processSubscriptionPayment x y z => simp [issuedId] at h
    | cancelSubscription x y => simp [issuedId] at h
    | deactivatePaymentLink x y => simp [issuedId] at h
    | deactivateSubscriptionPlan x y => simp [issuedId] at h
  | subsNS =>
    cases op with
    | subscribe inv pid =>
      cases hex : subscribe env s inv pid with
      | error e => simp [issuedId, hex] at h
      | ok out =>
        obtain ⟨plan, tok, hp, hact, hc, ht, htr, hout⟩ := subscribe_ok hex
        subst hout
        simp [issuedId, hex] at h
        refine ⟨h.symm, ?_, rfl⟩
        show (commit env s (.subscribe inv pid)).sctr = a
        simp [commit, exec, hex]
        exact h
    | init x y => simp [issuedId] at h
    | addMerchant x y => simp [issuedId] at h
    | removeMerchant x y => simp [issuedId] at h
    | processPayment x y => simp [issuedId] at h
    | createPaymentLink x y z => simp [issuedId] at h
    | createSubscriptionPlan x y z w => simp [issuedId] at h
    | processSubscriptionPayment x y z => simp [issuedId] at h
    | cancelSubscription x y => simp [issuedId] at h
    | deactivatePaymentLink x y => simp [issuedId] at h
    | deactivateSubscriptionPlan x y => simp [issuedId] at h

/-! ### Concrete demonstration states -/

/-- Environment whose external transfer always succeeds. -/
def envT (t : Nat) : XEnv :=
  ⟨t, fun _ _ _ => true⟩

/-- Environment whose external transfer always fails. -/
def envF (t : Nat) : XEnv :=
  ⟨t, fun _ _ _ => false⟩

/-- Owner 0 initializes with token 100, registers merchant 1, merchant 1
creates a plan (amount 50, interval 10), subscriber 2 subscribes at
time 5. -/
def baseTr : List (XEnv × Op) :=
  [(envT 0, .init 0 100), (envT 0, .addMerchant 0 1),
   (envT 0, .createSubscriptionPlan 1 50 10 "plan"),
   (envT 5, .subscribe 2 1)]

def baseStore : Store :=
  runTrace baseTr emptyStore

/-- The state of baseTr just before the subscribe step. -/
def planStore : Store :=
  runTrace (baseTr.take 3) emptyStore

/-- Owner 0 initializes with token 100, registers merchant 1, merchant 1
creates link 1 (amount 7) and then deactivates it. -/
def linkTrA : List (XEnv × Op) :=
  [(envT 0, .init 0 100), (envT 0, .addMerchant 0 1),
   (envT 0, .createPaymentLink 1 7 "d"),
   (envT 0, .deactivatePaymentLink 1 1)]

def storeA : Store :=
  runTrace linkTrA emptyStore

/-- Continuation of linkTrA: a second init resets the counters, the
merchant is re-registered and creates another link, which is stored
under the reused id 1. -/
def linkTrB : List (XEnv × Op) :=
  [(envT 1, .init 0 100), (envT 1, .addMerchant 0 1),
   (envT 1, .createPaymentLink 1 9 "e")]

def storeB : Store :=
  runTrace linkTrB storeA

/-- The state of linkTrA just after the link is created: owner 0,
merchant 1 registered, link counter 1, link 1 active. -/
def preStore : Store :=
  runTrace (linkTrA.take 3) emptyStore

/-- What a second init by address 5 with token 200 commits on top of
preStore. -/
def postReinit : Store :=
  commit (envT 9) preStore (.init 5 200)

/-! ### Claim C1 -/

/-- Claim C1 fails on the code: in the reachable state baseStore,
address 1 is a registered merchant, subscriber 2 holds the active
subscription with id 1, and yet cancel_subscription invoked by
merchant 1 on subscription id 1 aborts with SubNotFound instead of
succeeding, because the lookup key is (invoker, id), not
(subscriber, id).  This falsifies the claim that a registered merchant
who is not the subscriber can cancel any subscriber's active
subscription. -/
theorem C1_counterexample :
    baseStore.merch.contains 1 = true ∧
    alGet baseStore.subs (2, 1) = some ⟨2, 1, 5, 5, true⟩ ∧
    exec (envT 6) baseStore (.cancelSubscription 1 1) =
      .error .SubNotFound :=
  ⟨rfl, rfl, rfl⟩

/-- Claim C1 amended: cancel_subscription operates only on the
subscription stored under the invoker's own key (invoker, id).  When
that subscription exists and is active, and the invoker is its
subscriber or a registered merchant, the call succeeds: it sets
active := false and emits SubscriptionCancelled.  A registered merchant
who is not the subscriber cannot reach another subscriber's
subscription (the lookup fails NotFound, see the counterexample). -/
theorem C1_cancel_own_subscription (env : XEnv) (s : Store) (inv : Address)
    (sid : Nat) (sub : Subscription)
    (hget : alGet s.subs (inv, sid) = some sub) (hact : sub.active = true)
    (hauth : sub.subscriber = inv ∨ is_merchant s inv = true) :
    exec env s (.cancelSubscription inv sid) =
      .ok ⟨{ s with subs := alSet s.subs (inv, sid) { sub with active := false } },
        [], [.SCnl sid]⟩ := by
  simp [exec, cancel_subscription, hget, hact, hauth]

/-- Witness for C1: subscriber 2 cancels its own subscription 1 in
baseStore. -/
theorem C1_cancel_own_subscription_witness :
    exec (envT 6) baseStore (.cancelSubscription 2 1) =
      .ok ⟨{ baseStore with
        subs := alSet baseStore.subs (2, 1)
          { (⟨2, 1, 5, 5, true⟩ : Subscription) with active := false } },
        [], [.SCnl 1]⟩ :=
  C1_cancel_own_subscription (envT 6) baseStore 2 1 ⟨2, 1, 5, 5, true⟩
    rfl rfl (Or.inl rfl)

/-! ### Claim C2 -/

/-- Claim C2 is the intended design but the code violates it: init
performs no already-initialized check.  In the reachable state preStore
(owner 0, merchant 1 registered, one link issued), a second init by
address 5 succeeds and overwrites the owner and token, clears the
merchant registry and resets the counters, while keeping the entity
maps.  The stored owner and token are therefore not immutable. -/
theorem C2_reinit_overwrites :
    preStore.owner = some 0 ∧ preStore.lctr = 1 ∧ preStore.merch = [1] ∧
    postReinit.owner = some 5 ∧ postReinit.token = some 200 ∧
    postReinit.merch = [] ∧ postReinit.lctr = 0 ∧
    postReinit.plink = preStore.plink :=
  ⟨rfl, rfl, rfl, rfl, rfl, rfl, rfl, rfl⟩

/-! ### Claim C3 -/

/-- Claim C3: if the external token transfer made inside subscribe
fails, the whole subscribe invocation aborts (with TransferFailed) and
commits no state change: no subscription record is persisted and the
subscription counter keeps its pre-call value. -/
theorem C3_subscribe_rollback (env : XEnv) (s : Store) (inv : Address)
    (pid : Nat) (plan : SubscriptionPlan) (tok : Address)
    (hplan : alGet s.splan pid = some plan) (hact : plan.active = true)
    (hctr : s.sctr + 1 < U32LIM) (htok : s.token = some tok)
    (htr : env.transferOk inv plan.merchant plan.amount = false) :
    exec env s (.subscribe inv pid) = .error .TransferFailed ∧
    commit env s (.subscribe inv pid) = s := by
  have h1 : exec env s (.subscribe inv pid) = .error .TransferFailed := by
    simp [exec, subscribe, hplan, hact, hctr, htok, htr]
  refine ⟨h1, ?_⟩
  unfold commit
  rw [h1]

/-- Witness for C3: in planStore (active plan 1), subscriber 2
subscribes under an environment whose transfer fails; the invocation
aborts and the store is unchanged. -/
theorem C3_subscribe_rollback_witness :
    exec (envF 5) planStore (.subscribe 2 1) = .error .TransferFailed ∧
    commit (envF 5) planStore (.subscribe 2 1) = planStore :=
  C3_subscribe_rollback (envF 5) planStore 2 1 ⟨1, 50, 10, true, "plan"⟩
    100 rfl rfl (by decide) rfl rfl

/-! ### Claim C4 -/

/-- Claim C4: for an active subscription with an active plan,
process_subscription_payment fails with NotDue exactly when the ledger
time is strictly before last_payment + interval; and when the time has
reached last_payment + interval (and the external transfer succeeds) it
succeeds, performing one transfer of plan.amount from the subscriber to
the plan's merchant and setting last_payment := now. -/
theorem C4_due_boundary (env : XEnv) (s : Store) (inv subr : Address)
    (sid : Nat) (sub : Subscription) (plan : SubscriptionPlan)
    (hsub : alGet s.subs (subr, sid) = some sub) (hact : sub.active = true)
    (hplan : alGet s.splan sub.plan_id = some plan)
    (hpact : plan.active = true) :
    (exec env s (.processSubscriptionPayment inv subr sid) =
        .error .NotDue ↔ env.now < sub.last_payment + plan.interval) ∧
    (∀ tok, sub.last_payment + plan.interval ≤ env.now →
      s.token = some tok →
      env.transferOk subr plan.merchant plan.amount = true →
      exec env s (.processSubscriptionPayment inv subr sid) =
        .ok ⟨{ s with subs := alSet s.subs (subr, sid) { sub with last_payment := env.now } },
          [⟨subr, plan.merchant, plan.amount⟩], [.SPay sid]⟩) := by
  constructor
  · by_cases hdue : sub.last_payment + plan.interval ≤ env.now
    · cases ht : s.token with
      | none =>
        simp [exec, process_subscription_payment, hsub, hact, hplan,
          hpact, hdue, ht]
      | some tok =>
        cases htr : env.transferOk subr plan.merchant plan.amount <;>
          simp [exec, process_subscription_payment, hsub, hact, hplan,
            hpact, hdue, ht, htr]
    · simp [exec, process_subscription_payment, hsub, hact, hplan, hpact,
        hdue]
      omega
  · intro tok hdue htok htr
    simp [exec, process_subscription_payment, hsub, hact, hplan, hpact,
      hdue, htok, htr]

/-- Witness for C4 at baseStore: at time 20, subscription (2, 1) with
last_payment 5 and interval 10 is due (the NotDue test is false since
20 is not before 15), and payment succeeds, updating last_payment. -/
theorem C4_due_boundary_witness :
    (exec (envT 20) baseStore (.processSubscriptionPayment 9 2 1) =
        .error .NotDue ↔ (envT 20).now < 5 + 10) ∧
    (∀ tok, 5 + 10 ≤ (envT 20).now → baseStore.token = some tok →
      (envT 20).transferOk 2 1 50 = true →
      exec (envT 20) baseStore (.processSubscriptionPayment 9 2 1) =
        .ok ⟨{ baseStore with
          subs := alSet baseStore.subs (2, 1)
            { (⟨2, 1, 5, 5, true⟩ : Subscription) with
                last_payment := (envT 20).now } },
          [⟨2, 1, 50⟩], [.SPay 1]⟩) :=
  C4_due_boundary (envT 20) baseStore 9 2 1 ⟨2, 1, 5, 5, true⟩
    ⟨1, 50, 10, true, "plan"⟩ rfl rfl rfl rfl

/-! ### Claim C5 -/

/-- Claim C5 fails on the code as stated over arbitrary operation
sequences: after the deactivation trace linkTrA, re-running init (trace
linkTrB) resets the link counter, and the next createPaymentLink issues
id 1 a second time, even though id 1 had already been issued earlier in
the combined trace.  Ids are therefore reused across a
re-initialization. -/
theorem C5_counterexample :
    issuedId .links (envT 0) (runTrace (linkTrA.take 2) emptyStore)
      (.createPaymentLink 1 7 "d") = some 1 ∧
    issuedId .links (envT 1) (runTrace (linkTrB.take 2) storeA)
      (.createPaymentLink 1 9 "e") = some 1 :=
  ⟨rfl, rfl⟩

/-- Claim C5 amended: in any span of operations that contains no
re-initialization between the two creates, a later successful create
issues an id strictly greater than any id issued earlier in the same
namespace (so no id is reused), and an id issued when the namespace's
counter is 0 (as after init) is 1. -/
theorem C5_ids_monotone (ns : NS) (env1 env2 : XEnv) (s : Store)
    (op1 op2 : Op) (tr : List (XEnv × Op)) (a b : Nat)
    (hni : ∀ q ∈ tr, isInitOp q.2 = false)
    (h1 : issuedId ns env1 s op1 = some a)
    (h2 : issuedId ns env2 (runTrace tr (commit env1 s op1)) op2 = some b) :
    a < b ∧ (ctrOf ns s = 0 → a = 1) := by
  obtain ⟨ha1, ha2, _⟩ := issuedId_some h1
  obtain ⟨hb1, _, _⟩ := issuedId_some h2
  have hmid : ctrOf ns (commit env1 s op1) ≤
      ctrOf ns (runTrace tr (commit env1 s op1)) := by
    have hp := runTrace_pres tr (commit env1 s op1) hni
    cases ns with
    | links => exact hp.2.2.1
    | plans => exact hp.2.2.2.1
    | subsNS => exact hp.2.2.2.2.1
  constructor
  · omega
  · intro h0
    omega

/-- Witness for C5: from the store where owner 0 has registered
merchant 1, two consecutive createPaymentLink calls issue ids 1 and 2. -/
theorem C5_ids_monotone_witness :
    1 < 2 ∧
    (ctrOf .links (runTrace (linkTrA.take 2) emptyStore) = 0 → 1 = 1) :=
  C5_ids_monotone .links (envT 0) (envT 0)
    (runTrace (linkTrA.take 2) emptyStore)
    (.createPaymentLink 1 7 "d") (.createPaymentLink 1 9 "e") [] 1 2
    (by intro q hq; exact absurd hq (List.not_mem_nil q)) rfl rfl

/-! ### Claim C6 -/

/-- Claim C6 fails on the code as stated: in the reachable state storeA
link 1 is deactivated, yet after the public operations of linkTrB
(init, addMerchant, createPaymentLink) the entry under id 1 is active
again — re-initialization resets the counter while keeping the link
map, so a later create overwrites the deactivated link with a fresh
active one. -/
theorem C6_counterexample :
    alGet storeA.plink 1 = some ⟨1, 7, false, "d"⟩ ∧
    alGet storeB.plink 1 = some ⟨1, 9, true, "e"⟩ :=
  ⟨rfl, rfl⟩

/-- Claim C6 amended: the active flag is a one-way latch under every
trace that contains no re-initialization: a deactivated link, plan or
subscription whose id is within the allocated counter range stays
present and deactivated after any such trace of public operations. -/
theorem C6_latch (s : Store) (tr : List (XEnv × Op))
    (hni : ∀ q ∈ tr, isInitOp q.2 = false) :
    (∀ i l, alGet s.plink i = some l → l.active = false → i ≤ s.lctr →
      ∃ l2, alGet (runTrace tr s).plink i = some l2 ∧ l2.active = false) ∧
    (∀ i p, alGet s.splan i = some p → p.active = false → i ≤ s.pctr →
      ∃ p2, alGet (runTrace tr s).splan i = some p2 ∧ p2.active = false) ∧
    (∀ a i su, alGet s.subs (a, i) = some su → su.active = false →
      i ≤ s.sctr →
      ∃ su2, alGet (runTrace tr s).subs (a, i) = some su2 ∧
        su2.active = false) := by
  have hp := runTrace_pres tr s hni
  exact ⟨hp.2.2.2.2.2.1, hp.2.2.2.2.2.2.1, hp.2.2.2.2.2.2.2⟩

/-- Witness for C6: the deactivated link 1 of storeA stays inactive
under a further trace (a failed payment attempt against it). -/
theorem C6_latch_witness :
    ∃ l2,
      alGet (runTrace [(envT 2, .processPayment 3 1)] storeA).plink 1 =
        some l2 ∧ l2.active = false :=
  (C6_latch storeA [(envT 2, .processPayment 3 1)]
      (by intro q hq; rw [List.mem_singleton] at hq; rw [hq]; rfl)).1
    1 ⟨1, 7, false, "d"⟩ rfl rfl (by decide)

/-! ### Claim C7 -/

/-- Claim C7: every successful subscribe performs exactly one token
transfer, of plan.amount from the subscriber to the plan's merchant, and
the created subscription (stored under the freshly issued id) has
last_payment = start_time = now, the ledger timestamp of the call. -/
theorem C7_subscribe_one_transfer (env : XEnv) (s : Store) (inv : Address)
    (pid : Nat) (out : Out)
    (h : exec env s (.subscribe inv pid) = .ok out) :
    ∃ plan, alGet s.splan pid = some plan ∧
      out.transfers = [⟨inv, plan.merchant, plan.amount⟩] ∧
      out.store.sctr = s.sctr + 1 ∧
      alGet out.store.subs (inv, s.sctr + 1) =
        some ⟨inv, pid, env.now, env.now, true⟩ := by
  have h2 : subscribe env s inv pid = .ok out := by
    simpa [exec] using h
  obtain ⟨plan, tok, hp, hact, hc, ht, htr, hout⟩ := subscribe_ok h2
  subst hout
  exact ⟨plan, hp, rfl, rfl, alGet_alSet_self _ _ _⟩

/-- The Out value committed by the witness subscription of C7. -/
def C7out : Out :=
  ⟨{ planStore with
      sctr := 1
      subs := alSet planStore.subs (2, 1) ⟨2, 1, 5, 5, true⟩ },
    [⟨2, 1, 50⟩], [.Subd 1, .SPay 1]⟩

/-- Witness for C7: subscriber 2 subscribing to plan 1 of planStore at
time 5 performs the single transfer of 50 from 2 to merchant 1 and
stores the subscription with start_time = last_payment = 5. -/
theorem C7_subscribe_one_transfer_witness :
    ∃ plan, alGet planStore.splan 1 = some plan ∧
      C7out.transfers = [⟨2, plan.merchant, plan.amount⟩] ∧
      C7out.store.sctr = planStore.sctr + 1 ∧
      alGet C7out.store.subs (2, planStore.sctr + 1) =
        some ⟨2, 1, 5, 5, true⟩ :=
  C7_subscribe_one_transfer (envT 5) planStore 2 1 C7out rfl

/-! ### Claim C8 -/

/-- Claim C8: a successful remove_merchant removes exactly the named
merchant (the remaining registry is the filter keeping every other
element) and nothing else changes: links, plans, subscriptions, owner
and token are untouched.  In particular a link created earlier by the
removed merchant remains, and process_payment against it still succeeds
(when the link is active, the token is configured and the external
transfer goes through). -/
theorem C8_remove_merchant_frame (env : XEnv) (s : Store) (inv m : Address)
    (out : Out) (h : exec env s (.removeMerchant inv m) = .ok out) :
    out.store.merch = s.merch.filter (fun x => x != m) ∧
    (∀ x, x ∈ out.store.merch ↔ x ∈ s.merch ∧ x ≠ m) ∧
    out.store.plink = s.plink ∧ out.store.splan = s.splan ∧
    out.store.subs = s.subs ∧ out.store.owner = s.owner ∧
    out.store.token = s.token ∧
    (∀ env2 payer lid link tok, alGet s.plink lid = some link →
      link.active = true → s.token = some tok →
      env2.transferOk payer link.merchant link.amount = true →
      exec env2 out.store (.processPayment payer lid) =
        .ok ⟨out.store, [⟨payer, link.merchant, link.amount⟩],
          [.Payd lid]⟩) := by
  have h2 : remove_merchant s inv m = .ok out := by
    simpa [exec] using h
  obtain ⟨o, ho, hi, hm, hout⟩ := remove_merchant_ok h2
  subst hout
  refine ⟨rfl, ?_, rfl, rfl, rfl, rfl, rfl, ?_⟩
  · intro x
    simp [List.mem_filter]
  · intro env2 payer lid link tok hl hla htk htr2
    simp [exec, process_payment, hl, hla, htk, htr2]

/-- Witness for C8: removing merchant 1 from preStore (where merchant 1
has created the active link 1) leaves the registry empty, keeps the
link, and a payment by address 3 against link 1 still succeeds. -/
theorem C8_remove_merchant_frame_witness :
    (commit (envT 3) preStore (.removeMerchant 0 1)).merch =
      preStore.merch.filter (fun x => x != 1) ∧
    (∀ x, x ∈ (commit (envT 3) preStore (.removeMerchant 0 1)).merch ↔
      x ∈ preStore.merch ∧ x ≠ 1) ∧
    (commit (envT 3) preStore (.removeMerchant 0 1)).plink =
      preStore.plink ∧
    (commit (envT 3) preStore (.removeMerchant 0 1)).splan =
      preStore.splan ∧
    (commit (envT 3) preStore (.removeMerchant 0 1)).subs =
      preStore.subs ∧
    (commit (envT 3) preStore (.removeMerchant 0 1)).owner =
      preStore.owner ∧
    (commit (envT 3) preStore (.removeMerchant 0 1)).token =
      preStore.token ∧
    (∀ env2 payer lid link tok, alGet preStore.plink lid = some link →
      link.active = true → preStore.token = some tok →
      env2.transferOk payer link.merchant link.amount = true →
      exec env2 (commit (envT 3) preStore (.removeMerchant 0 1))
          (.processPayment payer lid) =
        .ok ⟨commit (envT 3) preStore (.removeMerchant 0 1),
          [⟨payer, link.merchant, link.amount⟩], [.Payd lid]⟩) :=
  C8_remove_merchant_frame (envT 3) preStore 0 1
    ⟨{ preStore with merch := preStore.merch.filter (fun x => x != 1) },
      [], [.MRem 1]⟩ rfl

/-! ### Claim C9 -/

/-- Claim C9: in every reachable state, a subscription stored under key
(addr, id) has its subscriber field equal to addr; all operations that
write the subscriptions map preserve this correspondence. -/
theorem C9_key_matches_subscriber (s : Store) (h : Reachable s) :
    SubsWF s := by
  obtain ⟨tr, htr⟩ := h
  rw [← htr]
  exact subsWF_run tr emptyStore subsWF_empty

/-- Witness for C9: the reachable state baseStore (built by baseTr,
including a subscribe) satisfies the key/subscriber correspondence. -/
theorem C9_key_matches_subscriber_witness : SubsWF baseStore :=
  C9_key_matches_subscriber baseStore ⟨baseTr, rfl⟩

/-! ### Claim C10 -/

/-- Claim C10: process_payment never writes the persistent store: for
every invocation, successful or failing, the committed store is exactly
the starting store — all maps, counters, the registry and the
owner/token configuration are unchanged. -/
theorem C10_process_payment_no_write (env : XEnv) (s : Store)
    (inv : Address) (lid : Nat) :
    commit env s (.processPayment inv lid) = s :=
  commit_processPayment_frame env s inv lid

end PaymentGateway
